import Mathlib

/-!
Shallow embedding of the trading bot core (src/strategy_breakout.py and
src/server.py): breakout signal detection over candle windows, payout-based
asset filtering, position sizing, the single-pass scan loop, and trade-log
reading. Prices and payouts are modelled as exact rationals: the source
compares, takes min/max of, and tests equality of IEEE floats, and that
order structure embeds faithfully in the rationals.
-/

namespace Bot2

/-- One OHLC candle, modelling the dictionaries returned by the broker
client. The detector reads only the fields low, high and close; the other
fields are carried so that dependence results can be stated. The field
open is renamed since it is a Lean keyword. -/
structure Candle where
  open_ : ℚ
  high : ℚ
  low : ℚ
  close : ℚ
  timestamp : ℚ
  deriving DecidableEq, Repr

/-- Junk candle for out-of-range list reads; the length guard of
compute_signal keeps every read in range, so it is never consulted. -/
def dummyCandle : Candle := ⟨0, 0, 0, 0, 0⟩

/-- Python min over a list of floats (a left fold). The source applies it
only to the 5-element extrema window, so the empty case is junk. -/
def listMin : List ℚ → ℚ
  | [] => 0
  | x :: xs => xs.foldl min x

/-- Python max over a list of floats (a left fold). -/
def listMax : List ℚ → ℚ
  | [] => 0
  | x :: xs => xs.foldl max x

/-- candles[-2], the previous (fully closed) candle. -/
def prevCandle (candles : List Candle) : Candle :=
  candles.getD (candles.length - 2) dummyCandle

/-- candles[-1], the current candle. -/
def currCandle (candles : List Candle) : Candle :=
  candles.getD (candles.length - 1) dummyCandle

/-- candles[-6:-1], the 5 candles ending at the previous candle. -/
def extremaWindow (candles : List Candle) : List Candle :=
  (candles.drop (candles.length - 6)).take 5

/-- min(lows) over the extrema window (line 43 of the source). -/
def lowest5 (candles : List Candle) : ℚ :=
  listMin ((extremaWindow candles).map Candle.low)

/-- max(highs) over the extrema window (line 44 of the source). -/
def highest5 (candles : List Candle) : ℚ :=
  listMax ((extremaWindow candles).map Candle.high)

/-- compute_signal from src/strategy_breakout.py, lines 21-54. Returns
(signal, valid) with signal one of "call", "put", "". -/
def compute_signal (candles : List Candle) : String × Bool :=
  if candles.length < 6 then ("", false)
  else if (prevCandle candles).low = lowest5 candles ∧
      (currCandle candles).close > (prevCandle candles).high then ("call", true)
  else if (prevCandle candles).high = highest5 candles ∧
      (currCandle candles).close < (prevCandle candles).low then ("put", true)
  else ("", false)

/-- A 6-candle window triggering the Call branch: the previous candle sets
the 5-candle low (1) and the current close (7) breaks the previous high (6). -/
def sampleCall : List Candle :=
  [⟨1, 10, 2, 5, 100⟩, ⟨1, 10, 3, 5, 160⟩, ⟨1, 10, 4, 5, 220⟩,
   ⟨1, 10, 5, 6, 280⟩, ⟨1, 6, 1, 2, 340⟩, ⟨2, 9, 2, 7, 400⟩]

/-- Round half to even to the nearest integer, the tie mode of Python round. -/
def roundHalfEven (x : ℚ) : ℤ :=
  if x - ⌊x⌋ < 1 / 2 then ⌊x⌋
  else if 1 / 2 < x - ⌊x⌋ then ⌊x⌋ + 1
  else if ⌊x⌋ % 2 = 0 then ⌊x⌋ else ⌊x⌋ + 1

/-- round(x, 2) of Python: round to 2 decimal places, half to even. -/
def round2 (x : ℚ) : ℚ := (roundHalfEven (x * 100) : ℚ) / 100

/-- trade_amount of src/strategy_breakout.py line 106:
round(max(balance * TRADE_PERCENT, 1.0), 2). -/
def trade_amount (balance percent : ℚ) : ℚ :=
  round2 (max (balance * percent) 1)

/-- Result of one client.get_payout_by_asset call, as the duck-typed source
sees it: the call can raise, return None, return a bare number, or return a
mapping; of a mapping the source only reads the keys "1M" and "1", whose
values are modelled as present-and-numeric or absent-or-null. -/
inductive PayoutResult where
  | raisesError
  | nullProfit
  | num (x : ℚ)
  | table (oneM one : Option ℚ)
  deriving DecidableEq, Repr

/-- The expression profit.get("1M") or profit.get("1") of line 66: Python
or falls through on a falsy left operand, i.e. on a missing key, a null
value, or the float zero. -/
def dictVal (oneM one : Option ℚ) : Option ℚ :=
  match oneM with
  | some v => if v = 0 then one else some v
  | none => one

/-- The payout the loop body of lines 61-71 extracts from one lookup:
none means the asset is skipped (exception or null profit); for a mapping,
float(val) if val is not None else 0.0. -/
def payoutOf : PayoutResult → Option ℚ
  | .raisesError => none
  | .nullProfit => none
  | .num x => some x
  | .table oneM one => some ((dictVal oneM one).getD 0)

/-- get_payout_filtered_assets from src/strategy_breakout.py, lines 57-74,
with the broker lookup abstracted as a function of the asset. Each loop
iteration either appends the asset (payout at or above threshold) or skips
it; an exception skips exactly that asset. -/
def get_payout_filtered_assets (g : String → PayoutResult) (threshold : ℚ) :
    List String → List String
  | [] => []
  | a :: rest =>
    match g a with
    | .raisesError => get_payout_filtered_assets g threshold rest
    | .nullProfit => get_payout_filtered_assets g threshold rest
    | .num x =>
        if x ≥ threshold then a :: get_payout_filtered_assets g threshold rest
        else get_payout_filtered_assets g threshold rest
    | .table oneM one =>
        if (dictVal oneM one).getD 0 ≥ threshold then
          a :: get_payout_filtered_assets g threshold rest
        else get_payout_filtered_assets g threshold rest

/-- The per-asset scan of run_strategy_once, lines 109-129: fetch candles
(a failed fetch is the empty list, line 81), skip on a short window or an
invalid signal, and on the first valid signal place one trade and return.
The result lists the trades placed in the pass as (asset, direction). -/
def run_strategy_scan (fetch : String → List Candle) :
    List String → List (String × String)
  | [] => []
  | asset :: rest =>
    let candles := fetch asset
    if candles.length < 6 then run_strategy_scan fetch rest
    else
      let sv := compute_signal candles
      if sv.2 then [(asset, sv.1)]
      else run_strategy_scan fetch rest

/-- Whether the loop body would trade an asset: the window is long enough
and compute_signal marks it valid. -/
def validSignal (fetch : String → List Candle) (asset : String) : Bool :=
  if (fetch asset).length < 6 then false else (compute_signal (fetch asset)).2

/-- One parsed trade-log record, the fields get_trade_logs reads: the
timestamp (missing key read as ""), the status, and the pnl field, none
standing for a missing or non-numeric value (both contribute nothing). -/
structure TradeRec where
  timestamp : String
  status : String
  pnl : Option ℚ
  deriving DecidableEq, Repr

/-- One physical line of trades.log: blank, unparsable JSON, or a record. -/
inductive LogLine where
  | blank
  | malformed
  | record (r : TradeRec)
  deriving DecidableEq, Repr

/-- The three accumulators of get_trade_logs in src/server.py. -/
structure LogView where
  active_trades : List TradeRec
  trade_history : List TradeRec
  daily_pnl : ℚ
  deriving DecidableEq, Repr

/-- One iteration of the line loop of get_trade_logs, lines 152-172:
blank lines and JSON decode errors leave the accumulators unchanged;
a record of another day is ignored; a same-day record goes to the active
list or to the history, the latter also adding its pnl. -/
def logStep (today : String) (acc : LogView) : LogLine → LogView
  | .blank => acc
  | .malformed => acc
  | .record r =>
      if r.timestamp.startsWith today then
        if r.status = "active" then
          { acc with active_trades := acc.active_trades ++ [r] }
        else
          { acc with trade_history := acc.trade_history ++ [r],
                     daily_pnl := acc.daily_pnl + r.pnl.getD 0 }
      else acc

/-- get_trade_logs from src/server.py, lines 137-176: the lines of the log
file are visited newest first (for line in reversed(lines)). -/
def get_trade_logs (today : String) (lines : List LogLine) : LogView :=
  lines.reverse.foldl (logStep today) ⟨[], [], 0⟩

/-! ## Theorems about the signal detector -/

/-- C1: on a window of at least 6 candles whose previous candle is a
well-formed OHLC candle (low at most high), compute_signal returns
("call", true) exactly under the Call trigger, ("put", true) exactly under
the Put trigger, and ("", false) when neither trigger holds. -/
theorem compute_signal_breakout_correct (candles : List Candle)
    (h6 : 6 ≤ candles.length)
    (hwf : (prevCandle candles).low ≤ (prevCandle candles).high) :
    ((prevCandle candles).low = lowest5 candles ∧
        (currCandle candles).close > (prevCandle candles).high →
      compute_signal candles = ("call", true)) ∧
    ((prevCandle candles).high = highest5 candles ∧
        (currCandle candles).close < (prevCandle candles).low →
      compute_signal candles = ("put", true)) ∧
    (¬((prevCandle candles).low = lowest5 candles ∧
        (currCandle candles).close > (prevCandle candles).high) →
      ¬((prevCandle candles).high = highest5 candles ∧
        (currCandle candles).close < (prevCandle candles).low) →
      compute_signal candles = ("", false)) := by
  have hng : ¬(candles.length < 6) := not_lt.2 h6
  refine ⟨?_, ?_, ?_⟩
  · intro hcall
    unfold compute_signal
    rw [if_neg hng, if_pos hcall]
  · intro hput
    have hncall : ¬((prevCandle candles).low = lowest5 candles ∧
        (currCandle candles).close > (prevCandle candles).high) := by
      rintro ⟨-, h1⟩
      exact absurd (lt_trans hput.2 (lt_of_le_of_lt hwf h1)) (lt_irrefl _)
    unfold compute_signal
    rw [if_neg hng, if_neg hncall, if_pos hput]
  · intro h1 h2
    unfold compute_signal
    rw [if_neg hng, if_neg h1, if_neg h2]

/-- Witness for C1: the sample Call window takes the Call branch. -/
theorem compute_signal_breakout_correct_witness :
    compute_signal sampleCall = ("call", true) :=
  (compute_signal_breakout_correct sampleCall (by decide) (by decide)).1
    (by decide)

/-- C2: a window of fewer than 6 candles never yields a valid signal. -/
theorem compute_signal_short_window (candles : List Candle)
    (h : candles.length < 6) : compute_signal candles = ("", false) := by
  unfold compute_signal
  rw [if_pos h]

/-- Witness for C2: the empty window is rejected. -/
theorem compute_signal_short_window_witness :
    compute_signal [] = ("", false) :=
  compute_signal_short_window [] (by decide)

/-- C3: for a well-formed previous candle (low at most high) the Call
trigger and the Put trigger of compute_signal can never hold together. -/
theorem call_put_triggers_disjoint (candles : List Candle)
    (hwf : (prevCandle candles).low ≤ (prevCandle candles).high) :
    ¬(((prevCandle candles).low = lowest5 candles ∧
        (currCandle candles).close > (prevCandle candles).high) ∧
      ((prevCandle candles).high = highest5 candles ∧
        (currCandle candles).close < (prevCandle candles).low)) := by
  rintro ⟨⟨-, h1⟩, ⟨-, h2⟩⟩
  exact absurd (lt_trans h2 (lt_of_le_of_lt hwf h1)) (lt_irrefl _)

/-- Witness for C3: disjointness instantiated at the sample Call window. -/
theorem call_put_triggers_disjoint_witness :
    ¬(((prevCandle sampleCall).low = lowest5 sampleCall ∧
        (currCandle sampleCall).close > (prevCandle sampleCall).high) ∧
      ((prevCandle sampleCall).high = highest5 sampleCall ∧
        (currCandle sampleCall).close < (prevCandle sampleCall).low)) :=
  call_put_triggers_disjoint sampleCall (by decide)

/-- C10: the detector reads nothing but the close of the current candle,
the low and high of the previous candle, and the lows and highs of the
5-candle extrema window: two windows of length at least 6 agreeing on
those fields get the same (signal, valid) answer. -/
theorem compute_signal_depends_only_on_read_fields
    (w1 w2 : List Candle) (h1 : 6 ≤ w1.length) (h2 : 6 ≤ w2.length)
    (hclose : (currCandle w1).close = (currCandle w2).close)
    (hlow : (prevCandle w1).low = (prevCandle w2).low)
    (hhigh : (prevCandle w1).high = (prevCandle w2).high)
    (hlows : (extremaWindow w1).map Candle.low =
      (extremaWindow w2).map Candle.low)
    (hhighs : (extremaWindow w1).map Candle.high =
      (extremaWindow w2).map Candle.high) :
    compute_signal w1 = compute_signal w2 := by
  unfold compute_signal lowest5 highest5
  rw [if_neg (not_lt.2 h1), if_neg (not_lt.2 h2)]
  simp only [hclose, hlow, hhigh, hlows, hhighs]

/-- A 7-candle window whose last 6 candles agree with sampleCall on every
field the detector reads, but differ on opens, timestamps, the extrema
closes and the irrelevant fields of the current candle. -/
def sampleCallNoise : List Candle :=
  [⟨50, 50, 50, 50, 1⟩, ⟨7, 10, 2, 8, 101⟩, ⟨7, 10, 3, 8, 161⟩,
   ⟨7, 10, 4, 8, 221⟩, ⟨7, 10, 5, 8, 281⟩, ⟨3, 6, 1, 4, 341⟩,
   ⟨5, 99, 0, 7, 401⟩]

/-- Witness for C10: the noisy variant gets the same answer as the sample
Call window. -/
theorem compute_signal_depends_only_on_read_fields_witness :
    compute_signal sampleCall = compute_signal sampleCallNoise :=
  compute_signal_depends_only_on_read_fields sampleCall sampleCallNoise
    (by decide) (by decide) (by decide) (by decide) (by decide)
    (by decide) (by decide)

/-! ## Lemmas about the rounding model and the stake -/

lemma le_roundHalfEven_of_le (n : ℤ) (x : ℚ) (h : (n : ℚ) ≤ x) :
    n ≤ roundHalfEven x := by
  unfold roundHalfEven
  have hf : n ≤ ⌊x⌋ := Int.le_floor.2 h
  split_ifs <;> omega

lemma roundHalfEven_le (x : ℚ) : (roundHalfEven x : ℚ) ≤ x + 1 / 2 := by
  unfold roundHalfEven
  have h1 : (⌊x⌋ : ℚ) ≤ x := Int.floor_le x
  have h2 : x < ⌊x⌋ + 1 := Int.lt_floor_add_one x
  split_ifs with ha hb hc
  · linarith
  · push_cast
    linarith
  · linarith
  · have ht : x - ⌊x⌋ = 1 / 2 := le_antisymm (not_lt.1 hb) (not_lt.1 ha)
    push_cast
    linarith

lemma one_le_round2 (x : ℚ) (h : 1 ≤ x) : 1 ≤ round2 x := by
  unfold round2
  have h100 : ((100 : ℤ) : ℚ) ≤ x * 100 := by push_cast; linarith
  have hr : ((100 : ℤ) : ℚ) ≤ (roundHalfEven (x * 100) : ℚ) :=
    Int.cast_le.2 (le_roundHalfEven_of_le 100 (x * 100) h100)
  rw [le_div_iff₀ (by norm_num : (0 : ℚ) < 100)]
  push_cast at hr ⊢
  linarith

lemma round2_le_add (x : ℚ) : round2 x ≤ x + 1 / 200 := by
  unfold round2
  have h := roundHalfEven_le (x * 100)
  rw [div_le_iff₀ (by norm_num : (0 : ℚ) < 100)]
  linarith

lemma roundHalfEven_intCast (n : ℤ) : roundHalfEven (n : ℚ) = n := by
  unfold roundHalfEven
  rw [Int.floor_intCast]
  norm_num

lemma round2_intCast (n : ℤ) : round2 (n : ℚ) = n := by
  unfold round2
  have hc : ((n : ℚ)) * 100 = ((n * 100 : ℤ) : ℚ) := by push_cast; ring
  rw [hc, roundHalfEven_intCast]
  push_cast
  field_simp

lemma round2_one : round2 (1 : ℚ) = 1 := by
  have h := round2_intCast 1
  simpa using h

/-- C6: the stake of line 106 is round(max(balance * percent, 1.0), 2);
it is never below 1.0, and with the configured nonnegative percent a
nonpositive balance yields exactly the floor stake 1.0. -/
theorem trade_amount_formula (balance percent : ℚ) (hp : 0 ≤ percent) :
    trade_amount balance percent = round2 (max (balance * percent) 1) ∧
    1 ≤ trade_amount balance percent ∧
    (balance ≤ 0 → trade_amount balance percent = 1) := by
  refine ⟨rfl, one_le_round2 _ (le_max_right _ _), ?_⟩
  intro hb
  have hbp : balance * percent ≤ 0 := mul_nonpos_iff.2 (Or.inr ⟨hb, hp⟩)
  have hmax : max (balance * percent) 1 = 1 :=
    max_eq_right (le_trans hbp zero_le_one)
  unfold trade_amount
  rw [hmax]
  exact round2_one

/-- Witness for C6: a negative balance is staked at the floor 1.0. -/
theorem trade_amount_formula_witness : trade_amount (-5) 1 = 1 :=
  (trade_amount_formula (-5) 1 (by norm_num)).2.2 (by norm_num)

/-- Counterexample for C7 as stated: at balance 0.5 with the default 2
percent setting the stake is the floor 1.0, which exceeds the balance. -/
theorem trade_amount_can_exceed_balance :
    ¬(trade_amount (1 / 2) (1 / 50) ≤ 1 / 2) := by
  have hmax : max ((1 / 2 : ℚ) * (1 / 50)) 1 = 1 := max_eq_right (by norm_num)
  have h1 : trade_amount (1 / 2) (1 / 50) = 1 := by
    unfold trade_amount
    rw [hmax]
    exact round2_one
  rw [h1]
  norm_num

/-- C7 amended: the stake is at least the floor 1.0, and it stays within
the balance whenever the balance is at least 1.0 and the percent is within
the configured upper bound of 15 percent; for balances below 1.0 the floor
stake can exceed the balance. -/
theorem trade_amount_within_balance (balance percent : ℚ)
    (hb : 1 ≤ balance) (hp : percent ≤ 3 / 20) :
    1 ≤ trade_amount balance percent ∧
      trade_amount balance percent ≤ balance := by
  refine ⟨one_le_round2 _ (le_max_right _ _), ?_⟩
  rcases le_or_lt (balance * percent) 1 with hle | hgt
  · have hmax : max (balance * percent) 1 = 1 := max_eq_right hle
    unfold trade_amount
    rw [hmax, round2_one]
    exact hb
  · have hmax : max (balance * percent) 1 = balance * percent :=
      max_eq_left hgt.le
    unfold trade_amount
    rw [hmax]
    have h1 : round2 (balance * percent) ≤ balance * percent + 1 / 200 :=
      round2_le_add _
    have h2 : balance * percent ≤ balance * (3 / 20) :=
      mul_le_mul_of_nonneg_left hp (by linarith)
    linarith

/-- Witness for C7 amended: balance 100 at percent 0 stakes the floor 1.0,
within the balance. -/
theorem trade_amount_within_balance_witness :
    1 ≤ trade_amount 100 0 ∧ trade_amount 100 0 ≤ 100 :=
  trade_amount_within_balance 100 0 (by norm_num) (by norm_num)

/-! ## Theorems about the scan pass, the asset filter and the log reader -/

/-- C4: a scan pass places at most one trade, and the trade list is exactly
the first asset in list order with a valid signal (with its direction), or
empty when no asset yields a valid signal. -/
theorem run_strategy_scan_single_trade (fetch : String → List Candle)
    (assets : List String) :
    (run_strategy_scan fetch assets).length ≤ 1 ∧
    run_strategy_scan fetch assets =
      (assets.find? (validSignal fetch)).elim []
        (fun a => [(a, (compute_signal (fetch a)).1)]) := by
  induction assets with
  | nil => simp [run_strategy_scan, List.find?]
  | cons a rest ih =>
    by_cases h6 : (fetch a).length < 6
    · have hv : validSignal fetch a = false := by simp [validSignal, h6]
      rw [List.find?_cons_of_neg _ (by simp [hv])]
      simpa [run_strategy_scan, h6] using ih
    · by_cases hs : (compute_signal (fetch a)).2 = true
      · have hv : validSignal fetch a = true := by simp [validSignal, h6, hs]
        rw [List.find?_cons_of_pos _ hv]
        simp [run_strategy_scan, h6, hs]
      · have hv : validSignal fetch a = false := by simp [validSignal, h6, hs]
        rw [List.find?_cons_of_neg _ (by simp [hv])]
        simpa [run_strategy_scan, h6, hs] using ih

/-- Whether the filter keeps an asset: its lookup neither raises nor
returns null, and the extracted payout reaches the threshold. -/
def payoutOk (g : String → PayoutResult) (t : ℚ) (a : String) : Bool :=
  match payoutOf (g a) with
  | some p => decide (t ≤ p)
  | none => false

/-- C5: the asset filter returns exactly the qualifying assets in the given
order; a raising or null lookup drops only that asset, and the pass over
the remaining assets continues. -/
theorem get_payout_filtered_assets_eq_filter (g : String → PayoutResult)
    (t : ℚ) (assets : List String) :
    get_payout_filtered_assets g t assets = assets.filter (payoutOk g t) := by
  induction assets with
  | nil => rfl
  | cons a rest ih =>
    cases hg : g a with
    | raisesError =>
      simp [get_payout_filtered_assets, List.filter_cons, payoutOk, payoutOf,
        hg, ih]
    | nullProfit =>
      simp [get_payout_filtered_assets, List.filter_cons, payoutOk, payoutOf,
        hg, ih]
    | num x =>
      by_cases hx : t ≤ x
      · simp [get_payout_filtered_assets, List.filter_cons, payoutOk,
          payoutOf, hg, hx, ih, ge_iff_le]
      · simp [get_payout_filtered_assets, List.filter_cons, payoutOk,
          payoutOf, hg, hx, ih, ge_iff_le]
    | table oneM one =>
      by_cases hx : t ≤ (dictVal oneM one).getD 0
      · simp [get_payout_filtered_assets, List.filter_cons, payoutOk,
          payoutOf, hg, hx, ih, ge_iff_le]
      · simp [get_payout_filtered_assets, List.filter_cons, payoutOk,
          payoutOf, hg, hx, ih, ge_iff_le]

/-- C9: in a keyed payout mapping the value under "1M" is used only when
present and nonzero, a missing, null or zero "1M" falls back to the value
under "1", and when that is also absent the payout is read as 0, so the
asset passes the filter only for thresholds at most 0. -/
theorem payout_table_key_fallback (one : Option ℚ) (v t : ℚ) (a : String) :
    payoutOf (PayoutResult.table (some v) one) =
      some (if v = 0 then one.getD 0 else v) ∧
    payoutOf (PayoutResult.table none one) = some (one.getD 0) ∧
    payoutOf (PayoutResult.table none none) = some 0 ∧
    get_payout_filtered_assets (fun _ => PayoutResult.table none none) t [a] =
      if t ≤ 0 then [a] else [] := by
  refine ⟨?_, rfl, rfl, ?_⟩
  · by_cases hv : v = 0 <;> simp [payoutOf, dictVal, hv]
  · by_cases ht : t ≤ 0 <;>
      simp [get_payout_filtered_assets, dictVal, ge_iff_le, ht]

/-- C8: a malformed line anywhere in the trade log changes nothing: the
reader skips it and still returns every remaining same-day record and the
same daily pnl. -/
theorem get_trade_logs_skips_malformed (today : String)
    (xs ys : List LogLine) :
    get_trade_logs today (xs ++ LogLine.malformed :: ys) =
      get_trade_logs today (xs ++ ys) := by
  simp [get_trade_logs, List.reverse_append, List.foldl_append, logStep]

end Bot2
